import Mathlib

/-
Shallow embedding of the model-import and fit-statistic pipeline of the
python-sasctl repository (`sasctl/pzmm/import_model.py` and
`sasctl/pzmm/writeJSONFiles.py`), together with theorems settling the
specification claims about it.

Python values that can appear as a "data role" argument or as a JSON value are
modelled by small inductive types; Python floats (and float-valued statistics)
are modelled as rationals; external library calls (numpy, sklearn, scipy,
SWAT/CAS) are abstracted as function parameters, since they are third-party
collaborators outside this repository.
-/

/-- A Python value as it is discriminated by `type(x) is int / float / str`
checks in `writeJSONFiles.py`. `bool` is separate because in Python
`type(True) is int` is `False`; `other` stands for any further type. -/
inductive PyVal where
  | int (n : ℤ)
  | float (q : ℚ)
  | str (s : String)
  | bool (b : Bool)
  | other
deriving DecidableEq

/-- Truncation toward zero, the semantics of Python `int(x)` on a float `x`:
the sign of the numerator times the Nat-division of its absolute value by the
denominator. -/
def pyTrunc (q : ℚ) : ℤ :=
  Int.sign q.num * (q.num.natAbs / q.den)

/-- Embedding of `JSONFiles.convertDataRole`: converts a data role identifier
from string to int or from int/float (truncated by `int(...)`) to string;
anything unrecognised converts to the TRAIN encoding. -/
def convertDataRole : PyVal → PyVal
  | .int n =>
      .str (if n = 1 then "TRAIN" else if n = 2 then "TEST"
            else if n = 3 then "VALIDATE" else "TRAIN")
  | .float q =>
      let n := pyTrunc q
      .str (if n = 1 then "TRAIN" else if n = 2 then "TEST"
            else if n = 3 then "VALIDATE" else "TRAIN")
  | .str s =>
      .int (if s = "TRAIN" then 1 else if s = "TEST" then 2
            else if s = "VALIDATE" then 3 else 1)
  | _ => .int 1

/-- Kernel-reducible version of `String.startsWith "_"`: the first character of
the string is an underscore. -/
def beginsUnderscore (p : String) : Bool :=
  p.data.head? = some '_'

/-- Kernel-reducible version of `String.endsWith "_"`: the last character of
the string is an underscore. -/
def finishesUnderscore (p : String) : Bool :=
  p.data.getLast? = some '_'

/-- Embedding of `JSONFiles.formatParameter`: pad a parameter name with a
leading and a trailing underscore where they are missing. -/
def formatParameter (p : String) : String :=
  if beginsUnderscore p && finishesUnderscore p then p
  else
    let p1 := if beginsUnderscore p then p else "_" ++ p
    if finishesUnderscore p1 then p1 else p1 ++ "_"

/-- The thirteen statistical parameters accepted by `writeBaseFitStat`
(`validParams` in the source). -/
def validParams : List String :=
  ["_RASE_", "_NObs_", "_GINI_", "_GAMMA_", "_MCE_",
   "_ASE_", "_MCLL_", "_KS_", "_KSPostCutoff_", "_DIV_",
   "_TAU_", "_KSCut_", "_C_"]

/-- A JSON value as stored in a `dataMap` of the fit-statistic files: a
number (Python floats modelled as rationals), an integer (counts, partition
indicators), a string, or JSON null. -/
inductive JVal where
  | rat (q : ℚ)
  | int (n : ℤ)
  | str (s : String)
  | null
deriving DecidableEq

/-- A `dataMap` dictionary: insertion-ordered string-keyed pairs, as a Python
dict. -/
abbrev DataMap := List (String × JVal)

/-- Lookup of a key in a `dataMap`. -/
def lookupParam (m : DataMap) (k : String) : Option JVal :=
  (m.find? fun kv => kv.1 = k).map (·.2)

/-- Python dict assignment `m[k] = v`: replace the value when the key is
present, append the pair otherwise. -/
def setParam (m : DataMap) (k : String) (v : JVal) : DataMap :=
  if m.any (fun kv => kv.1 = k) then
    m.map fun kv => if kv.1 = k then (k, v) else kv
  else m ++ [(k, v)]

/-- The three entries of the `data` array of the `dmcas_fitstat.json`
template, each reduced to its `dataMap` dictionary (the only part either
writer mutates). -/
structure FitStatData where
  d0 : DataMap
  d1 : DataMap
  d2 : DataMap

/-- Read the entry of a `FitStatData` at a (Python, already wrapped) index. -/
def FitStatData.entry (d : FitStatData) : Fin 3 → DataMap
  | 0 => d.d0
  | 1 => d.d1
  | 2 => d.d2

/-- Replace the entry of a `FitStatData` at an index. -/
def FitStatData.setEntry (d : FitStatData) : Fin 3 → DataMap → FitStatData
  | 0, m => { d with d0 := m }
  | 1, m => { d with d1 := m }
  | 2, m => { d with d2 := m }

/-- Python list indexing on a length-3 list: indices `0..2` directly,
`-3..-1` wrap from the end, anything else raises `IndexError`. -/
def pyListIdx (i : ℤ) : Option (Fin 3) :=
  if h : 0 ≤ i ∧ i < 3 then some ⟨i.toNat, by omega⟩
  else if h2 : -3 ≤ i ∧ i < 0 then some ⟨(i + 3).toNat, by omega⟩
  else none

/-- One element of the `tupleList` argument of `writeBaseFitStat`: either a
3-element tuple `(paramName, paramValue, dataRole)`, or any other Python value
(non-tuple, or a tuple of a different length), which the code ignores. -/
inductive FitArg where
  | tup3 (name : String) (value : JVal) (role : PyVal)
  | other

/-- Processing of one `tupleList` element by `writeBaseFitStat`: format the
name, skip invalid parameters, convert string roles with `convertDataRole`,
then assign into `dataMap[dataRole-1]`. `none` models a raised exception
(e.g. a float or unusable role makes `dataMap[dataRole-1]` raise), in which
case no file is written. -/
def writeBaseStep (d : FitStatData) : FitArg → Option FitStatData
  | .other => some d
  | .tup3 nm v role =>
    let p := formatParameter nm
    if p ∉ validParams then some d
    else
      let r : PyVal := match role with
        | .str s => convertDataRole (.str s)
        | x => x
      match r with
      | .int n => (pyListIdx (n - 1)).map fun i =>
          d.setEntry i (setParam (d.entry i) p v)
      | .bool b => (pyListIdx ((if b then 1 else 0) - 1)).map fun i =>
          d.setEntry i (setParam (d.entry i) p v)
      | _ => none

/-- Embedding of `JSONFiles.writeBaseFitStat` restricted to the `tupleList`
mode (`userInput=False`, `csvPath=None`, as in the claims): fold the tuple
processing over the list, starting from the null template `tmpl`; the result
is the written `dmcas_fitstat.json` data, or `none` when an exception
prevented any file from being written. -/
def writeBaseFitStat (tmpl : FitStatData) (tupleList : List FitArg) :
    Option FitStatData :=
  tupleList.foldlM writeBaseStep tmpl

/-- The third-party statistic routines called by `calculateFitStat`
(scikit-learn `metrics`, `scipy.stats`), abstracted as functions of the
actual and predicted value lists; they are external collaborators, not code
of this repository. `mse` is `metrics.mean_squared_error`; `ksStat` is
`max |fpr - tpr|` over the `roc_curve` output; `accuracyRounded` is
`metrics.accuracy_score` of the actuals against the rounded predictions;
`aucOfCurve` is `metrics.auc(fpr, tpr)`; `gammaScale` is the `scale` returned
by `scipy.stats.gamma.fit` on the predictions; `npSqrt` is `numpy.sqrt`
(floating-point square root, abstract here). -/
structure ExternalStats where
  npSqrt : ℚ → ℚ
  mse : List ℚ → List ℚ → ℚ
  rocAucScore : List ℚ → List ℚ → ℚ
  gammaScale : List ℚ → ℚ
  accuracyRounded : List ℚ → List ℚ → ℚ
  logLoss : List ℚ → List ℚ → ℚ
  ksStat : List ℚ → List ℚ → ℚ
  kendallTau : List ℚ → List ℚ → ℚ
  aucOfCurve : List ℚ → List ℚ → ℚ

/-- The sequence of `fitStats[...] = ...` assignments performed by
`calculateFitStat` for one partition: `init` is the template entry dataMap,
`j` the partition index written to `_PartInd_`, `a` and `p` the actual and
predicted values of the partition. -/
def fitStatMap (ext : ExternalStats) (init : DataMap) (j : ℤ)
    (a p : List ℚ) : DataMap :=
  let m := setParam init "_PartInd_" (.int j)
  let m := setParam m "_RASE_" (.rat (ext.npSqrt (ext.mse a p)))
  let m := setParam m "_NObs_" (.int a.length)
  let m := setParam m "_GINI_" (.rat (2 * ext.rocAucScore a p - 1))
  let m := setParam m "_GAMMA_" (.rat (1 / ext.gammaScale p))
  let m := setParam m "_MCE_" (.rat (1 - ext.accuracyRounded a p))
  let m := setParam m "_ASE_" (.rat (ext.mse a p))
  let m := setParam m "_MCLL_" (.rat (ext.logLoss a p))
  let m := setParam m "_KS_" (.rat (ext.ksStat a p))
  let m := setParam m "_KSPostCutoff_" .null
  let m := setParam m "_DIV_" (.int a.length)
  let m := setParam m "_TAU_" (.rat (ext.kendallTau a p))
  let m := setParam m "_KSCut_" .null
  setParam m "_C_" (.rat (ext.aucOfCurve a p))

/-- A partition data set after the input conversion at the top of
`calculateFitStat`: the list of actual values paired with the list of
predicted values (`dataSets[j][0]` and `dataSets[j][1]`). -/
abbrev PartData := List ℚ × List ℚ

/-- Embedding of `JSONFiles.calculateFitStat`: when no partition is given the
function raises `ValueError` before writing anything (modelled as `none`);
otherwise each provided partition's statistics are written into the template
entry of the same position, enumerating `[validateData, trainData, testData]`
as partitions `0, 1, 2`. -/
def calculateFitStat (ext : ExternalStats) (tmpl : FitStatData)
    (validateData trainData testData : Option PartData) : Option FitStatData :=
  if validateData = none ∧ trainData = none ∧ testData = none then none
  else some
    { d0 := match validateData with
        | some (a, p) => fitStatMap ext tmpl.d0 0 a p
        | none => tmpl.d0
      d1 := match trainData with
        | some (a, p) => fitStatMap ext tmpl.d1 1 a p
        | none => tmpl.d1
      d2 := match testData with
        | some (a, p) => fitStatMap ext tmpl.d2 2 a p
        | none => tmpl.d2 }

/-- A row of the `data` array of the `dmcas_roc.json` / `dmcas_lift.json`
templates, reduced to the parts `generateROCLiftStat` manipulates: its
`rowNumber` field, and which partition's assessment results were written into
its `dataMap` (`none` for an untouched template row of nulls). The CAS
assessment values themselves come from the external SWAT call and play no
role in the row-structure claims. -/
structure TRow where
  rowNumber : ℤ
  filledPart : Option ℕ
deriving DecidableEq

/-- Assignment `rows[n] = f rows[n]`, Python list item mutation at a
non-negative index. -/
def modifyAt (l : List TRow) (n : ℕ) (f : TRow → TRow) : List TRow :=
  l.mapIdx fun k r => if k = n then f r else r

/-- The loop body of `generateROCLiftStat` for one present partition `i`: for
`j` in `range(rowsPerPart)` fill the row at index `i*rowsPerPart + j` from the
partition's assessment results and remove its template row number from the
null-row list. -/
def fillPart (rowsPerPart : ℕ) (i : ℕ) (st : List TRow × List ℤ) :
    List TRow × List ℤ :=
  (List.range rowsPerPart).foldl
    (fun st j =>
      let idx := i * rowsPerPart + j
      (modifyAt st.1 idx fun r => { r with filledPart := some i },
       st.2.erase ((idx : ℤ) + 1)))
    st

/-- Modelled from the spec: the `data` arrays of the fixed
`null_dmcas_roc.json` (300 rows) and `null_dmcas_lift.json` (63 rows)
templates shipped with the repository but not present under `src/`; the code
of `generateROCLiftStat` relies on each having `total` rows whose `rowNumber`
fields are `1..total` in order, all dataMaps null. -/
def nullTemplateRows (total : ℕ) : List TRow :=
  (List.range total).map fun k : ℕ =>
    { rowNumber := (k : ℤ) + 1, filledPart := none }

/-- The row processing of `generateROCLiftStat` for one of the two files:
starting from the `total`-row null template and the null-row list
`list(range(1, total+1))`, fill `rowsPerPart` rows for each present
partition; when fewer than all three partitions are present, pop the rows
whose `rowNumber` is still in the null-row list and renumber the remaining
rows consecutively from 1. -/
def genAssessFile (rowsPerPart total : ℕ) (parts : List ℕ) : List TRow :=
  let st := parts.foldl (fun st i => fillPart rowsPerPart i st)
    (nullTemplateRows total, (List.range total).map fun k : ℕ => (k : ℤ) + 1)
  if parts.length < 3 then
    (st.1.filter fun r => r.rowNumber ∉ st.2).mapIdx
      fun k r => { r with rowNumber := (k : ℤ) + 1 }
  else st.1

/-- The `dataPartitionExists` list: indices of the provided partitions, in the
enumeration order `[validateData, trainData, testData]`. -/
def partsPresent (validateData trainData testData : Bool) : List ℕ :=
  (if validateData then [0] else []) ++ (if trainData then [1] else []) ++
    (if testData then [2] else [])

/-- Embedding of `JSONFiles.generateROCLiftStat` at the level of row
structure: partitions are abstracted to presence flags (the CAS-computed cell
values are external); `none` models the `ValueError` raised, before any file
is written, when no partition is provided. Otherwise the pair is the written
(`dmcas_roc.json`, `dmcas_lift.json`) data arrays, with 100 ROC rows and 21
lift rows filled per present partition. -/
def generateROCLiftStat (validateData trainData testData : Bool) :
    Option (List TRow × List TRow) :=
  if validateData = false ∧ trainData = false ∧ testData = false then none
  else
    let parts := partsPresent validateData trainData testData
    some (genAssessFile 100 300 parts, genAssessFile 21 63 parts)

/-- The events of one `ImportModel.import_model` call that the claims speak
about, in execution order: the missing-argument warning, the `zip_files` call
(with its `is_viya4` flag and whether a returned score-code dictionary was
merged into the zipped files), the project existence check
(`get_project` + `project_exists`), the model existence check
(`model_exists`), the zip import (`import_model_from_zip`), the score code
generation (`write_score_code`, with whether the imported model is passed to
it), and the final `get_model` fetch. -/
inductive Ev where
  | warnMissingArgs
  | zipFiles (isViya4 : Bool) (mergedScoreCode : Bool)
  | projectCheck
  | modelCheck
  | importZip
  | writeScoreCode (modelPassed : Bool)
  | getModel
deriving DecidableEq

/-- Which object `import_model` returns as its first component. -/
inductive RetResp where
  | importResponse   -- the response of `import_model_from_zip`
  | getModelResponse -- the response of the final `mr.get_model(model)` call
deriving DecidableEq

/-- Whether the returned `model_files` is the original argument or was updated
with the returned score-code dictionary. -/
inductive RetFiles where
  | original
  | updatedWithScoreCode
deriving DecidableEq

/-- The arguments of `import_model` that drive its control flow. -/
structure ImportArgs where
  filesAreDict : Bool        -- `model_files` is a dict (vs a path)
  inputDataGiven : Bool      -- `input_data is not None`
  predictMethodGiven : Bool  -- `predict_method` is truthy
  scoreMetricsGiven : Bool   -- `score_metrics` is truthy
  viyaVersion : ℕ            -- `current_session().version_info()`

/-- Modelled from the spec: the external collaborator
`ScoreCode.write_score_code` (in `pzmm/write_score_code.py`, not under `src/`)
returns the generated score code as a dictionary exactly when it is called
with `score_code_path=None`, which `import_model` arranges exactly when
`model_files` is a dict; with a path it writes the score file to that path
and returns nothing. -/
def scoreCodeReturnsDict (a : ImportArgs) : Bool :=
  a.filesAreDict

/-- The observable outcome of one `import_model` call. -/
structure ImportResult where
  trace : List Ev
  retResp : RetResp
  retFiles : RetFiles
deriving DecidableEq

/-- Embedding of `ImportModel.import_model` as the sequence of pipeline events
it performs and the shape of its return value. The three branches follow the
source: missing score-code arguments (warn, zip with `is_viya4=False`, check,
import); SAS Viya 4 (write score code, zip with `is_viya4=True`, check,
import); SAS Viya 3.5 (zip with `is_viya4=False`, check, import, then write
score code with the imported model). -/
def import_model (a : ImportArgs) : ImportResult :=
  if a.inputDataGiven = false ∨ a.predictMethodGiven = false ∨
      a.scoreMetricsGiven = false then
    { trace := [.warnMissingArgs, .zipFiles false false, .projectCheck,
                .modelCheck, .importZip],
      retResp := .importResponse,
      retFiles := .original }
  else if a.viyaVersion = 4 then
    let merged := scoreCodeReturnsDict a
    { trace := [.writeScoreCode false, .zipFiles true merged, .projectCheck,
                .modelCheck, .importZip],
      retResp := .importResponse,
      retFiles := if merged then .updatedWithScoreCode else .original }
  else
    { trace := [.zipFiles false false, .projectCheck, .modelCheck, .importZip,
                .writeScoreCode true, .getModel],
      retResp := .getModelResponse,
      retFiles := if scoreCodeReturnsDict a then .updatedWithScoreCode
                  else .original }

/-- The outcome of `project_exists`: the passed-in response returned
unchanged, a propagated `SystemError` (raised when the project parses as a
UUID; the surrounding `except ValueError` does not catch it), or the response
of `create_project(project, repo)`. `ρ` is the type of repository responses,
kept abstract. -/
inductive PEOutcome (ρ : Type) where
  | returned (r : ρ)
  | raisedSystemError
  | created (name : String)
deriving DecidableEq

/-- A call made by `project_exists` to the model repository service. -/
inductive RepoCall where
  | defaultRepository
  | createProject (name : String)
deriving DecidableEq

/-- Embedding of `pzmm.import_model.project_exists`: `uuidOk` abstracts the
Python `UUID(project)` constructor succeeding on the project string. The
second component lists the repository calls made. -/
def project_exists {ρ : Type} (uuidOk : String → Bool) (project : String)
    (resp : Option ρ) : PEOutcome ρ × List RepoCall :=
  match resp with
  | some r => (.returned r, [])
  | none =>
    if uuidOk project then (.raisedSystemError, [])
    else (.created project, [.defaultRepository, .createProject project])

/-- A model object of the project version, as returned by the
`/projects/{id}/projectVersions/{id}/models` GET. -/
structure MRModel where
  name : String
  id : ℕ
deriving DecidableEq

/-- The GET response `project_models`: falsy (no models), a single `RestObj`,
or a `PagedList` of models. -/
inductive ProjectModels where
  | empty
  | single (m : MRModel)
  | paged (ms : List MRModel)
deriving DecidableEq

/-- The models contained in a `project_models` response. -/
def ProjectModels.models : ProjectModels → List MRModel
  | .empty => []
  | .single m => [m]
  | .paged ms => ms

/-- The `PagedList` loop of `model_exists`: walk the models; a same-named
model is deleted when `force` is truthy and raises `ValueError` (stopping the
loop) when it is falsy. Returns the deleted model ids and whether
`ValueError` was raised. -/
def deleteLoop (nm : String) (force : Bool) : List MRModel → List ℕ × Bool
  | [] => ([], false)
  | m :: rest =>
    if m.name = nm ∧ force = true then
      let r := deleteLoop nm force rest
      (m.id :: r.1, r.2)
    else if m.name = nm ∧ force = false then ([], true)
    else deleteLoop nm force rest

/-- Embedding of `pzmm.import_model.model_exists` after the project version's
models have been fetched: returns the ids passed to `mr.delete_model` and
whether `ValueError` was raised. `force` models the truthiness of the `force`
argument. -/
def model_exists (pm : ProjectModels) (nm : String) (force : Bool) :
    List ℕ × Bool :=
  match pm with
  | .empty => ([], false)
  | .single m =>
    if m.name = nm ∧ force = true then ([m.id], false)
    else if m.name = nm ∧ force = false then ([], true)
    else ([], false)
  | .paged ms => deleteLoop nm force ms

/-- The template rows after filling the blocks of rows selected by the
position predicate `P` (block `i` covers positions `i*rpp .. i*rpp+rpp-1`);
used to characterise the loop of `generateROCLiftStat`. -/
def rowsP (rpp total : ℕ) (P : ℕ → Bool) : List TRow :=
  (List.range total).map fun k : ℕ =>
    { rowNumber := (k : ℤ) + 1,
      filledPart := if P k then some (k / rpp) else none }

/-- The remaining null-row numbers after erasing the row numbers of the
positions selected by `P`. -/
def nullP (total : ℕ) (P : ℕ → Bool) : List ℤ :=
  (List.range total).filterMap fun k =>
    if P k then none else some ((k : ℤ) + 1)

/-- The position predicate selecting the blocks of the partitions in
`parts`. -/
def partsHit (rpp : ℕ) (parts : List ℕ) (k : ℕ) : Bool :=
  parts.any fun i => decide (i * rpp ≤ k ∧ k < i * rpp + rpp)

/-- A concrete instance of the external statistic routines (all returning 0),
used to evaluate the embedding at concrete inputs. -/
def extZero : ExternalStats :=
  { npSqrt := fun _ => 0, mse := fun _ _ => 0, rocAucScore := fun _ _ => 0,
    gammaScale := fun _ => 1, accuracyRounded := fun _ _ => 0,
    logLoss := fun _ _ => 0, ksStat := fun _ _ => 0,
    kendallTau := fun _ _ => 0, aucOfCurve := fun _ _ => 0 }

/-- A `tupleList` element that `writeBaseFitStat` ignores: a non-tuple (or
wrong-arity tuple), or a tuple whose formatted parameter name is not one of
the thirteen valid parameters. -/
def ignoredFitArg : FitArg → Prop
  | .other => True
  | .tup3 nm _ _ => formatParameter nm ∉ validParams

-- ## Theorems

theorem mapIdx_map_range {α β : Type} (n : ℕ) (g : ℕ → α) (f : ℕ → α → β) :
    ((List.range n).map g).mapIdx f = (List.range n).map fun k => f k (g k) := by
  induction n with
  | zero => simp
  | succ m ih =>
    rw [List.range_succ, List.map_append, List.mapIdx_append, List.map_append, ih]
    simp

theorem rowsP_congr {rpp total : ℕ} {P Q : ℕ → Bool}
    (h : ∀ k, k < total → P k = Q k) :
    rowsP rpp total P = rowsP rpp total Q := by
  unfold rowsP
  exact List.map_congr_left fun k hk => by rw [h k (List.mem_range.mp hk)]

theorem nullP_congr {total : ℕ} {P Q : ℕ → Bool}
    (h : ∀ k, k < total → P k = Q k) :
    nullP total P = nullP total Q := by
  unfold nullP
  exact List.filterMap_congr fun k hk => by rw [h k (List.mem_range.mp hk)]

theorem nullP_nodup (total : ℕ) (P : ℕ → Bool) : (nullP total P).Nodup := by
  unfold nullP
  apply List.Nodup.filterMap _ (List.nodup_range total)
  intro a b c hca hcb
  by_cases ha : P a <;> by_cases hb : P b <;>
    simp [ha, hb] at hca hcb
  omega

theorem bool_ne_true {b : Bool} (h : b = false) : ¬(b = true) := by
  rw [h]
  exact Bool.false_ne_true

theorem fillAux (rpp total i : ℕ) (P : ℕ → Bool) :
    ∀ m, m ≤ rpp →
    (List.range m).foldl
      (fun st j =>
        (modifyAt st.1 (i * rpp + j) fun r => { r with filledPart := some i },
         st.2.erase ((↑(i * rpp + j) : ℤ) + 1)))
      (rowsP rpp total P, nullP total P) =
    ((rowsP rpp total fun k => P k || decide (i * rpp ≤ k ∧ k < i * rpp + m)),
     (nullP total fun k => P k || decide (i * rpp ≤ k ∧ k < i * rpp + m)))
  | 0, _ => by
    rw [List.range_zero, List.foldl_nil]
    refine Prod.ext ?_ ?_
    · exact rowsP_congr fun k _ => by simp
    · exact nullP_congr fun k _ => by simp
  | m + 1, hm => by
    rw [List.range_succ, List.foldl_append, fillAux rpp total i P m (by omega),
        List.foldl_cons, List.foldl_nil]
    refine Prod.ext ?_ ?_
    · show modifyAt _ (i * rpp + m) _ = _
      unfold modifyAt rowsP
      rw [mapIdx_map_range]
      refine List.map_congr_left fun k hk => ?_
      by_cases hkm : k = i * rpp + m
      · subst hkm
        have hdiv : (i * rpp + m) / rpp = i := by
          rw [add_comm, mul_comm, Nat.add_mul_div_left _ _ (by omega : 0 < rpp),
              Nat.div_eq_of_lt (by omega)]
          omega
        have hb : decide (i * rpp ≤ i * rpp + m ∧ i * rpp + m < i * rpp + (m + 1)) = true := by
          simp
        rw [if_pos rfl]
        simp [hb, hdiv]
      · have hd : decide (i * rpp ≤ k ∧ k < i * rpp + m) =
            decide (i * rpp ≤ k ∧ k < i * rpp + (m + 1)) := by
          rw [decide_eq_decide]; omega
        rw [if_neg hkm]
        simp only [hd]
    · show List.erase _ _ = _
      rw [List.Nodup.erase_eq_filter (nullP_nodup total _)]
      unfold nullP
      rw [List.filter_filterMap]
      refine List.filterMap_congr fun k hk => ?_
      by_cases hp : (P k || decide (i * rpp ≤ k ∧ k < i * rpp + m)) = true
      · have hp1 : (P k || decide (i * rpp ≤ k ∧ k < i * rpp + (m + 1))) = true := by
          rcases Bool.or_eq_true_iff.mp hp with h | h
          · exact Bool.or_eq_true_iff.mpr (Or.inl h)
          · refine Bool.or_eq_true_iff.mpr (Or.inr ?_)
            rw [decide_eq_true_iff] at h ⊢
            omega
        rw [if_pos hp, if_pos hp1]
        rfl
      · rw [Bool.not_eq_true] at hp
        by_cases hkm : k = i * rpp + m
        · have hb1 : decide (i * rpp ≤ k ∧ k < i * rpp + (m + 1)) = true := by
            rw [decide_eq_true_iff]
            omega
          have hp1 : (P k || decide (i * rpp ≤ k ∧ k < i * rpp + (m + 1))) = true := by
            rw [hb1, Bool.or_true]
          rw [if_neg (bool_ne_true hp), if_pos hp1]
          simp [Option.filter, hkm]
        · have hp1 : (P k || decide (i * rpp ≤ k ∧ k < i * rpp + (m + 1))) = false := by
            rw [Bool.or_eq_false_iff] at hp ⊢
            refine ⟨hp.1, ?_⟩
            have h2 := hp.2
            rw [decide_eq_false_iff_not] at h2 ⊢
            omega
          rw [if_neg (bool_ne_true hp), if_neg (bool_ne_true hp1)]
          have hb : ((↑k : ℤ) + 1 != ↑(i * rpp + m) + 1) = true := by
            rw [bne_iff_ne]
            intro hcontra
            exact hkm (by omega)
          simp only [Option.filter, hb]
          rfl

theorem fillPart_rowsP (rpp total i : ℕ) (P : ℕ → Bool) :
    fillPart rpp i (rowsP rpp total P, nullP total P) =
    ((rowsP rpp total fun k => P k || decide (i * rpp ≤ k ∧ k < i * rpp + rpp)),
     (nullP total fun k => P k || decide (i * rpp ≤ k ∧ k < i * rpp + rpp))) := by
  unfold fillPart
  exact fillAux rpp total i P rpp le_rfl

theorem foldl_fillPart (rpp total : ℕ) (parts : List ℕ) :
    ∀ P : ℕ → Bool,
    parts.foldl (fun st i => fillPart rpp i st) (rowsP rpp total P, nullP total P) =
    ((rowsP rpp total fun k => P k || partsHit rpp parts k),
     (nullP total fun k => P k || partsHit rpp parts k)) := by
  induction parts with
  | nil =>
    intro P
    rw [List.foldl_nil]
    refine Prod.ext (rowsP_congr fun k _ => ?_) (nullP_congr fun k _ => ?_) <;>
      simp [partsHit]
  | cons i rest ih =>
    intro P
    rw [List.foldl_cons, fillPart_rowsP, ih]
    refine Prod.ext (rowsP_congr fun k _ => ?_) (nullP_congr fun k _ => ?_) <;>
      simp [partsHit, Bool.or_assoc]

theorem init_rowsP (rpp total : ℕ) :
    nullTemplateRows total = rowsP rpp total fun _ => false := by
  unfold nullTemplateRows rowsP
  exact List.map_congr_left fun k _ => by simp

theorem init_nullP (total : ℕ) :
    ((List.range total).map fun k : ℕ => (k : ℤ) + 1) =
      nullP total fun _ => false := by
  unfold nullP
  exact (congrFun (List.filterMap_eq_map fun k : ℕ => (k : ℤ) + 1) (List.range total)).symm

theorem foldl_fillPart_init (rpp total : ℕ) (parts : List ℕ) :
    parts.foldl (fun st i => fillPart rpp i st)
      (nullTemplateRows total, (List.range total).map fun k : ℕ => (k : ℤ) + 1) =
    (rowsP rpp total (partsHit rpp parts), nullP total (partsHit rpp parts)) := by
  rw [init_rowsP rpp total, init_nullP total, foldl_fillPart]
  exact Prod.ext (rowsP_congr fun k _ => Bool.false_or _)
    (nullP_congr fun k _ => Bool.false_or _)

theorem genAssessFile_eq (rpp total : ℕ) (parts : List ℕ) :
    genAssessFile rpp total parts =
    (if parts.length < 3 then
      (((rowsP rpp total (partsHit rpp parts)).filter
          fun r => r.rowNumber ∉ nullP total (partsHit rpp parts)).mapIdx
        fun k r => { r with rowNumber := (k : ℤ) + 1 })
    else rowsP rpp total (partsHit rpp parts)) := by
  unfold genAssessFile
  rw [foldl_fillPart_init]

theorem mem_nullP (total : ℕ) (P : ℕ → Bool) (k : ℕ) (hk : k < total) :
    ((k : ℤ) + 1) ∈ nullP total P ↔ P k = false := by
  unfold nullP
  rw [List.mem_filterMap]
  constructor
  · rintro ⟨a, _, hfa⟩
    by_cases hp : P a = true
    · rw [if_pos hp] at hfa
      exact absurd hfa (by simp)
    · rw [Bool.not_eq_true] at hp
      rw [if_neg (bool_ne_true hp)] at hfa
      have hak : a = k := by
        have := Option.some.inj hfa
        omega
      rwa [← hak]
  · intro hp
    exact ⟨k, List.mem_range.mpr hk, by rw [if_neg (bool_ne_true hp)]⟩

theorem filter_rowsP (rpp total : ℕ) (P : ℕ → Bool) :
    ((rowsP rpp total P).filter fun r => r.rowNumber ∉ nullP total P) =
    ((List.range total).filter P).map fun k : ℕ =>
      { rowNumber := (k : ℤ) + 1,
        filledPart := if P k then some (k / rpp) else none } := by
  unfold rowsP
  rw [List.filter_map]
  congr 1
  refine List.filter_congr fun k hk => ?_
  have hk' := List.mem_range.mp hk
  by_cases hp : P k = true
  · simp [Function.comp, mem_nullP total P k hk', hp]
  · rw [Bool.not_eq_true] at hp
    simp [Function.comp, mem_nullP total P k hk', hp]

theorem countP_filledPart_mapIdx (p : Option ℕ → Bool) :
    ∀ (l : List TRow) (f : ℕ → TRow → TRow),
      (∀ n r, (f n r).filledPart = r.filledPart) →
      (l.mapIdx f).countP (fun r => p r.filledPart) =
        l.countP fun r => p r.filledPart
  | [], _, _ => by simp
  | a :: l, f, hf => by
    rw [List.mapIdx_cons, List.countP_cons, List.countP_cons,
      countP_filledPart_mapIdx p l (fun i => f (i + 1)) (fun n r => hf (n + 1) r),
      hf]

theorem map_rowNumber_mapIdx (l : List TRow) :
    ((l.mapIdx fun k r => { r with rowNumber := (k : ℤ) + 1 }).map
        fun r => r.rowNumber) =
      (List.range l.length).map fun k : ℕ => (k : ℤ) + 1 := by
  rw [List.mapIdx_eq_enum_map, List.map_map, ← List.enum_map_fst l, List.map_map]
  rfl

theorem countP_div_range (rpp : ℕ) (hrpp : 0 < rpp) (i : ℕ) :
    ∀ m : ℕ, (List.range (m * rpp)).countP (fun k => k / rpp == i) =
      if i < m then rpp else 0
  | 0 => by simp
  | m + 1 => by
    have hsplit : (m + 1) * rpp = m * rpp + rpp := by ring
    rw [hsplit, List.range_add, List.countP_append, countP_div_range rpp hrpp i m,
      List.countP_map]
    have hmap : (List.range rpp).countP ((fun k => k / rpp == i) ∘ fun x => m * rpp + x) =
        (List.range rpp).countP fun _ => m == i := by
      refine List.countP_congr fun x hx => ?_
      have hx' := List.mem_range.mp hx
      have hcomm : m * rpp + x = x + rpp * m := by ring
      have hdiv : (m * rpp + x) / rpp = m := by
        rw [hcomm, Nat.add_mul_div_left _ _ hrpp, Nat.div_eq_of_lt hx']
        omega
      simp only [Function.comp]
      rw [hdiv]
    rw [hmap]
    by_cases him : m = i
    · subst him
      simp
    · have : (m == i) = false := by
        simp [him]
      rw [this]
      simp only [List.countP_false, Function.const]
      have : ¬(i < m + 1) ↔ ¬(i < m) ∨ i = m := by omega
      rcases Nat.lt_trichotomy i m with h | h | h
      · rw [if_pos h, if_pos (by omega)]
        omega
      · omega
      · rw [if_neg (by omega : ¬i < m), if_neg (by omega : ¬i < m + 1)]

theorem countP_divmem_range (rpp : ℕ) (hrpp : 0 < rpp) (parts : List ℕ) :
    ∀ m : ℕ, (List.range (m * rpp)).countP (fun k => decide (k / rpp ∈ parts)) =
      ((List.range m).map fun j => if j ∈ parts then rpp else 0).sum
  | 0 => by simp
  | m + 1 => by
    have hsplit : (m + 1) * rpp = m * rpp + rpp := by ring
    rw [hsplit, List.range_add, List.countP_append,
      countP_divmem_range rpp hrpp parts m, List.countP_map, List.range_succ,
      List.map_append, List.sum_append]
    congr 1
    have hmap : (List.range rpp).countP
        ((fun k => decide (k / rpp ∈ parts)) ∘ fun x => m * rpp + x) =
        (List.range rpp).countP fun _ => decide (m ∈ parts) := by
      refine List.countP_congr fun x hx => ?_
      have hx' := List.mem_range.mp hx
      have hcomm : m * rpp + x = x + rpp * m := by ring
      have hdiv : (m * rpp + x) / rpp = m := by
        rw [hcomm, Nat.add_mul_div_left _ _ hrpp, Nat.div_eq_of_lt hx']
        omega
      simp only [Function.comp]
      rw [hdiv]
    rw [hmap]
    by_cases hm : m ∈ parts
    · simp [hm]
    · simp [hm]

theorem partsHit_eq_div_mem (rpp : ℕ) (hrpp : 0 < rpp) (parts : List ℕ) (k : ℕ) :
    partsHit rpp parts k = decide (k / rpp ∈ parts) := by
  unfold partsHit
  by_cases h : k / rpp ∈ parts
  · rw [decide_eq_true h]
    rw [List.any_eq_true]
    refine ⟨k / rpp, h, ?_⟩
    rw [decide_eq_true_iff]
    constructor
    · exact Nat.div_mul_le_self k rpp
    · have : k / rpp < k / rpp + 1 := by omega
      have := (Nat.div_lt_iff_lt_mul hrpp).mp this
      calc k < (k / rpp + 1) * rpp := this
        _ = k / rpp * rpp + rpp := by ring
  · rw [decide_eq_false h]
    rw [List.any_eq_false]
    intro i hi
    rw [decide_eq_true_iff]
    rintro ⟨hlo, hhi⟩
    apply h
    have : k / rpp = i := by
      refine Nat.div_eq_of_lt_le (by linarith [hlo]) ?_
      calc k < i * rpp + rpp := hhi
        _ = (i + 1) * rpp := by ring
    rwa [this]

theorem genAssess_cleanup (rpp : ℕ) (hrpp : 0 < rpp) (parts : List ℕ)
    (hlen : parts.length < 3) (hlt : ∀ i ∈ parts, i < 3) :
    (genAssessFile rpp (3 * rpp) parts).length =
        ((List.range 3).map fun j => if j ∈ parts then rpp else 0).sum ∧
    (∀ i : ℕ, (genAssessFile rpp (3 * rpp) parts).countP
        (fun r => r.filledPart == some i) = if i ∈ parts then rpp else 0) ∧
    (genAssessFile rpp (3 * rpp) parts).countP
        (fun r => r.filledPart == none) = 0 ∧
    ((genAssessFile rpp (3 * rpp) parts).map fun r => r.rowNumber) =
      (List.range (genAssessFile rpp (3 * rpp) parts).length).map
        fun k : ℕ => (k : ℤ) + 1 := by
  have hout : genAssessFile rpp (3 * rpp) parts =
      (((List.range (3 * rpp)).filter (partsHit rpp parts)).map fun k : ℕ =>
        ({ rowNumber := (k : ℤ) + 1,
           filledPart :=
             if partsHit rpp parts k then some (k / rpp) else none } : TRow)).mapIdx
        fun k r => { r with rowNumber := (k : ℤ) + 1 } := by
    rw [genAssessFile_eq, if_pos hlen, filter_rowsP]
  have hlenF : ((List.range (3 * rpp)).filter (partsHit rpp parts)).length =
      ((List.range 3).map fun j => if j ∈ parts then rpp else 0).sum := by
    rw [← List.countP_eq_length_filter]
    rw [List.countP_congr fun k _ => by rw [partsHit_eq_div_mem rpp hrpp]]
    exact countP_divmem_range rpp hrpp parts 3
  refine ⟨?_, ?_, ?_, ?_⟩
  · rw [hout, List.length_mapIdx, List.length_map, hlenF]
  · intro i
    rw [hout, countP_filledPart_mapIdx (fun o => o == some i) _
        (fun k r => { r with rowNumber := (k : ℤ) + 1 }) fun n r => rfl,
      List.countP_map, List.countP_filter]
    simp only [Function.comp]
    by_cases him : i ∈ parts
    · have hcg : ∀ k ∈ List.range (3 * rpp),
          ((((if partsHit rpp parts k then some (k / rpp) else none) : Option ℕ) ==
              some i) && partsHit rpp parts k) = true ↔ (k / rpp == i) = true := by
        intro k _
        rw [partsHit_eq_div_mem rpp hrpp]
        by_cases hki : k / rpp = i
        · rw [hki]
          simp [him]
        · have h1 : (k / rpp == i) = false := by simp [hki]
          rw [h1]
          by_cases hmem : k / rpp ∈ parts
          · simp [hmem, hki]
          · simp [hmem]
      rw [List.countP_congr hcg, countP_div_range rpp hrpp i 3,
        if_pos (hlt i him), if_pos him]
    · have hcg : ∀ k ∈ List.range (3 * rpp),
          ((((if partsHit rpp parts k then some (k / rpp) else none) : Option ℕ) ==
              some i) && partsHit rpp parts k) = true ↔ (false : Bool) = true := by
        intro k _
        rw [partsHit_eq_div_mem rpp hrpp]
        by_cases hmem : k / rpp ∈ parts
        · have hki : k / rpp ≠ i := fun h => him (h ▸ hmem)
          simp [hmem, hki]
        · simp [hmem]
      rw [List.countP_congr hcg, if_neg him]
      simp
  · rw [hout, countP_filledPart_mapIdx (fun o => o == none) _
        (fun k r => { r with rowNumber := (k : ℤ) + 1 }) fun n r => rfl,
      List.countP_map, List.countP_filter]
    simp only [Function.comp]
    have hcg : ∀ k ∈ List.range (3 * rpp),
        ((((if partsHit rpp parts k then some (k / rpp) else none) : Option ℕ) ==
            none) && partsHit rpp parts k) = true ↔ (false : Bool) = true := by
      intro k _
      by_cases hp : partsHit rpp parts k = true
      · simp [hp]
      · rw [Bool.not_eq_true] at hp
        simp [hp]
    rw [List.countP_congr hcg]
    simp
  · rw [hout, map_rowNumber_mapIdx, List.length_mapIdx]

theorem genAssess_full (rpp : ℕ) (hrpp : 0 < rpp) :
    (genAssessFile rpp (3 * rpp) [0, 1, 2]).length = 3 * rpp ∧
    (∀ i : ℕ, (genAssessFile rpp (3 * rpp) [0, 1, 2]).countP
        (fun r => r.filledPart == some i) =
        if i ∈ ([0, 1, 2] : List ℕ) then rpp else 0) ∧
    (genAssessFile rpp (3 * rpp) [0, 1, 2]).countP
        (fun r => r.filledPart == none) = 0 ∧
    ((genAssessFile rpp (3 * rpp) [0, 1, 2]).map fun r => r.rowNumber) =
      (List.range (genAssessFile rpp (3 * rpp) [0, 1, 2]).length).map
        fun k : ℕ => (k : ℤ) + 1 := by
  have hP : ∀ k, k < 3 * rpp → partsHit rpp [0, 1, 2] k = true := by
    intro k hk
    rw [partsHit_eq_div_mem rpp hrpp, decide_eq_true_iff]
    have : k / rpp < 3 := (Nat.div_lt_iff_lt_mul hrpp).mpr (by omega)
    interval_cases h : k / rpp <;> simp
  have hout : genAssessFile rpp (3 * rpp) [0, 1, 2] =
      rowsP rpp (3 * rpp) (partsHit rpp [0, 1, 2]) := by
    rw [genAssessFile_eq, if_neg (by simp)]
  refine ⟨?_, ?_, ?_, ?_⟩
  · rw [hout]
    unfold rowsP
    rw [List.length_map, List.length_range]
  · intro i
    rw [hout]
    unfold rowsP
    rw [List.countP_map]
    have hcg : ∀ k ∈ List.range (3 * rpp),
        (((fun r => r.filledPart == some i) ∘ fun k : ℕ =>
          ({ rowNumber := (k : ℤ) + 1,
             filledPart := if partsHit rpp [0, 1, 2] k then some (k / rpp)
               else none } : TRow)) k) = true ↔ (k / rpp == i) = true := by
      intro k hk
      have := hP k (List.mem_range.mp hk)
      simp only [Function.comp, this, if_pos]
      simp
    rw [List.countP_congr hcg, countP_div_range rpp hrpp i 3]
    have : i ∈ ([0, 1, 2] : List ℕ) ↔ i < 3 := by
      simp
      omega
    by_cases h3 : i < 3
    · rw [if_pos h3, if_pos (this.mpr h3)]
    · rw [if_neg h3, if_neg (fun hmem => h3 (this.mp hmem))]
  · rw [hout]
    unfold rowsP
    rw [List.countP_map]
    have hcg : ∀ k ∈ List.range (3 * rpp),
        (((fun r => r.filledPart == none) ∘ fun k : ℕ =>
          ({ rowNumber := (k : ℤ) + 1,
             filledPart := if partsHit rpp [0, 1, 2] k then some (k / rpp)
               else none } : TRow)) k) = true ↔ (false : Bool) = true := by
      intro k hk
      have := hP k (List.mem_range.mp hk)
      simp only [Function.comp, this, if_pos]
      simp
    rw [List.countP_congr hcg]
    simp
  · rw [hout]
    unfold rowsP
    rw [List.map_map, List.length_map, List.length_range]
    rfl


/-- C7: after every successful call to `generateROCLiftStat`, the written
`dmcas_roc.json` contains exactly 100 rows for each provided partition and
`dmcas_lift.json` exactly 21 rows for each provided partition, rows belonging
to absent partitions (and untouched template rows) are removed, and the
`rowNumber` fields in each written file are exactly the consecutive integers
`1..N` in order. -/
theorem c7_generateROCLiftStat_rows :
    ∀ (validateData trainData testData : Bool) (out : List TRow × List TRow),
    generateROCLiftStat validateData trainData testData = some out →
    ((out.1.length = 100 * (partsPresent validateData trainData testData).length ∧
      out.2.length = 21 * (partsPresent validateData trainData testData).length) ∧
     (∀ i : ℕ, out.1.countP (fun r => r.filledPart == some i) =
        if i ∈ partsPresent validateData trainData testData then 100 else 0) ∧
     (∀ i : ℕ, out.2.countP (fun r => r.filledPart == some i) =
        if i ∈ partsPresent validateData trainData testData then 21 else 0) ∧
     (out.1.countP (fun r => r.filledPart == none) = 0 ∧
      out.2.countP (fun r => r.filledPart == none) = 0) ∧
     (out.1.map (fun r => r.rowNumber) =
        (List.range out.1.length).map (fun k : ℕ => (k : ℤ) + 1) ∧
      out.2.map (fun r => r.rowNumber) =
        (List.range out.2.length).map (fun k : ℕ => (k : ℤ) + 1))) := by
  intro v t te out h
  cases v <;> cases t <;> cases te
  case false.false.false =>
    rw [show generateROCLiftStat false false false = none from rfl] at h
    exact Option.noConfusion h
  case false.false.true =>
    rw [show generateROCLiftStat false false true =
        some (genAssessFile 100 300 [2], genAssessFile 21 63 [2]) from rfl] at h
    have hpair := (Option.some.inj h).symm
    have h1 : out.1 = genAssessFile 100 300 [2] := by rw [hpair]
    have h2 : out.2 = genAssessFile 21 63 [2] := by rw [hpair]
    have hp : partsPresent false false true = [2] := rfl
    rw [h1, h2, hp, show (300 : ℕ) = 3 * 100 from by norm_num,
      show (63 : ℕ) = 3 * 21 from by norm_num]
    have h100 := genAssess_cleanup 100 (by norm_num) [2] (by norm_num)
      (by intro i hi; simp at hi; omega)
    have h21 := genAssess_cleanup 21 (by norm_num) [2] (by norm_num)
      (by intro i hi; simp at hi; omega)
    exact ⟨⟨by rw [h100.1]; decide, by rw [h21.1]; decide⟩, h100.2.1, h21.2.1,
      ⟨h100.2.2.1, h21.2.2.1⟩, h100.2.2.2, h21.2.2.2⟩
  case false.true.false =>
    rw [show generateROCLiftStat false true false =
        some (genAssessFile 100 300 [1], genAssessFile 21 63 [1]) from rfl] at h
    have hpair := (Option.some.inj h).symm
    have h1 : out.1 = genAssessFile 100 300 [1] := by rw [hpair]
    have h2 : out.2 = genAssessFile 21 63 [1] := by rw [hpair]
    have hp : partsPresent false true false = [1] := rfl
    rw [h1, h2, hp, show (300 : ℕ) = 3 * 100 from by norm_num,
      show (63 : ℕ) = 3 * 21 from by norm_num]
    have h100 := genAssess_cleanup 100 (by norm_num) [1] (by norm_num)
      (by intro i hi; simp at hi; omega)
    have h21 := genAssess_cleanup 21 (by norm_num) [1] (by norm_num)
      (by intro i hi; simp at hi; omega)
    exact ⟨⟨by rw [h100.1]; decide, by rw [h21.1]; decide⟩, h100.2.1, h21.2.1,
      ⟨h100.2.2.1, h21.2.2.1⟩, h100.2.2.2, h21.2.2.2⟩
  case false.true.true =>
    rw [show generateROCLiftStat false true true =
        some (genAssessFile 100 300 [1, 2], genAssessFile 21 63 [1, 2]) from rfl] at h
    have hpair := (Option.some.inj h).symm
    have h1 : out.1 = genAssessFile 100 300 [1, 2] := by rw [hpair]
    have h2 : out.2 = genAssessFile 21 63 [1, 2] := by rw [hpair]
    have hp : partsPresent false true true = [1, 2] := rfl
    rw [h1, h2, hp, show (300 : ℕ) = 3 * 100 from by norm_num,
      show (63 : ℕ) = 3 * 21 from by norm_num]
    have h100 := genAssess_cleanup 100 (by norm_num) [1, 2] (by norm_num)
      (by intro i hi; simp at hi; omega)
    have h21 := genAssess_cleanup 21 (by norm_num) [1, 2] (by norm_num)
      (by intro i hi; simp at hi; omega)
    exact ⟨⟨by rw [h100.1]; decide, by rw [h21.1]; decide⟩, h100.2.1, h21.2.1,
      ⟨h100.2.2.1, h21.2.2.1⟩, h100.2.2.2, h21.2.2.2⟩
  case true.false.false =>
    rw [show generateROCLiftStat true false false =
        some (genAssessFile 100 300 [0], genAssessFile 21 63 [0]) from rfl] at h
    have hpair := (Option.some.inj h).symm
    have h1 : out.1 = genAssessFile 100 300 [0] := by rw [hpair]
    have h2 : out.2 = genAssessFile 21 63 [0] := by rw [hpair]
    have hp : partsPresent true false false = [0] := rfl
    rw [h1, h2, hp, show (300 : ℕ) = 3 * 100 from by norm_num,
      show (63 : ℕ) = 3 * 21 from by norm_num]
    have h100 := genAssess_cleanup 100 (by norm_num) [0] (by norm_num)
      (by intro i hi; simp at hi; omega)
    have h21 := genAssess_cleanup 21 (by norm_num) [0] (by norm_num)
      (by intro i hi; simp at hi; omega)
    exact ⟨⟨by rw [h100.1]; decide, by rw [h21.1]; decide⟩, h100.2.1, h21.2.1,
      ⟨h100.2.2.1, h21.2.2.1⟩, h100.2.2.2, h21.2.2.2⟩
  case true.false.true =>
    rw [show generateROCLiftStat true false true =
        some (genAssessFile 100 300 [0, 2], genAssessFile 21 63 [0, 2]) from rfl] at h
    have hpair := (Option.some.inj h).symm
    have h1 : out.1 = genAssessFile 100 300 [0, 2] := by rw [hpair]
    have h2 : out.2 = genAssessFile 21 63 [0, 2] := by rw [hpair]
    have hp : partsPresent true false true = [0, 2] := rfl
    rw [h1, h2, hp, show (300 : ℕ) = 3 * 100 from by norm_num,
      show (63 : ℕ) = 3 * 21 from by norm_num]
    have h100 := genAssess_cleanup 100 (by norm_num) [0, 2] (by norm_num)
      (by intro i hi; simp at hi; omega)
    have h21 := genAssess_cleanup 21 (by norm_num) [0, 2] (by norm_num)
      (by intro i hi; simp at hi; omega)
    exact ⟨⟨by rw [h100.1]; decide, by rw [h21.1]; decide⟩, h100.2.1, h21.2.1,
      ⟨h100.2.2.1, h21.2.2.1⟩, h100.2.2.2, h21.2.2.2⟩
  case true.true.false =>
    rw [show generateROCLiftStat true true false =
        some (genAssessFile 100 300 [0, 1], genAssessFile 21 63 [0, 1]) from rfl] at h
    have hpair := (Option.some.inj h).symm
    have h1 : out.1 = genAssessFile 100 300 [0, 1] := by rw [hpair]
    have h2 : out.2 = genAssessFile 21 63 [0, 1] := by rw [hpair]
    have hp : partsPresent true true false = [0, 1] := rfl
    rw [h1, h2, hp, show (300 : ℕ) = 3 * 100 from by norm_num,
      show (63 : ℕ) = 3 * 21 from by norm_num]
    have h100 := genAssess_cleanup 100 (by norm_num) [0, 1] (by norm_num)
      (by intro i hi; simp at hi; omega)
    have h21 := genAssess_cleanup 21 (by norm_num) [0, 1] (by norm_num)
      (by intro i hi; simp at hi; omega)
    exact ⟨⟨by rw [h100.1]; decide, by rw [h21.1]; decide⟩, h100.2.1, h21.2.1,
      ⟨h100.2.2.1, h21.2.2.1⟩, h100.2.2.2, h21.2.2.2⟩
  case true.true.true =>
    rw [show generateROCLiftStat true true true =
        some (genAssessFile 100 300 [0, 1, 2], genAssessFile 21 63 [0, 1, 2]) from rfl] at h
    have hpair := (Option.some.inj h).symm
    have h1 : out.1 = genAssessFile 100 300 [0, 1, 2] := by rw [hpair]
    have h2 : out.2 = genAssessFile 21 63 [0, 1, 2] := by rw [hpair]
    have hp : partsPresent true true true = [0, 1, 2] := rfl
    rw [h1, h2, hp, show (300 : ℕ) = 3 * 100 from by norm_num,
      show (63 : ℕ) = 3 * 21 from by norm_num]
    have h100 := genAssess_full 100 (by norm_num)
    have h21 := genAssess_full 21 (by norm_num)
    exact ⟨⟨by rw [h100.1]; decide, by rw [h21.1]; decide⟩, h100.2.1, h21.2.1,
      ⟨h100.2.2.1, h21.2.2.1⟩, h100.2.2.2, h21.2.2.2⟩

/-- Witness for C7 at the concrete input where only the validation partition
is provided. -/
theorem c7_generateROCLiftStat_rows_witness :
    (genAssessFile 100 300 (partsPresent true false false)).length =
        100 * (partsPresent true false false).length ∧
    (genAssessFile 21 63 (partsPresent true false false)).countP
        (fun r => r.filledPart == some 0) =
      (if 0 ∈ partsPresent true false false then 21 else 0) ∧
    (genAssessFile 100 300 (partsPresent true false false)).countP
        (fun r => r.filledPart == none) = 0 ∧
    (genAssessFile 100 300 (partsPresent true false false)).map
        (fun r => r.rowNumber) =
      (List.range
          (genAssessFile 100 300 (partsPresent true false false)).length).map
        (fun k : ℕ => (k : ℤ) + 1) := by
  have h := c7_generateROCLiftStat_rows true false false
    (genAssessFile 100 300 (partsPresent true false false),
     genAssessFile 21 63 (partsPresent true false false)) rfl
  simp only [Prod.fst, Prod.snd] at h
  exact ⟨h.1.1, h.2.2.1 0, h.2.2.2.1.1, h.2.2.2.2.1⟩

theorem lookupParam_map_replace_self (k : String) (v : JVal) :
    ∀ m : DataMap, m.any (fun kv => kv.1 = k) = true →
    lookupParam (m.map fun kv => if kv.1 = k then (k, v) else kv) k = some v
  | [], h => by simp at h
  | kv :: rest, h => by
    by_cases hk : kv.1 = k
    · unfold lookupParam
      rw [List.map_cons, if_pos hk,
        List.find?_cons_of_pos _ (by simp)]
      rfl
    · have hany : rest.any (fun kv => kv.1 = k) = true := by
        rw [List.any_cons] at h
        rcases Bool.or_eq_true_iff.mp h with h1 | h1
        · exact absurd (of_decide_eq_true h1) hk
        · exact h1
      unfold lookupParam
      rw [List.map_cons, if_neg hk,
        List.find?_cons_of_neg _ (by simpa using hk)]
      exact lookupParam_map_replace_self k v rest hany

theorem lookupParam_map_replace_ne (k k' : String) (v : JVal) (hne : k' ≠ k) :
    ∀ m : DataMap,
    lookupParam (m.map fun kv => if kv.1 = k then (k, v) else kv) k' =
      lookupParam m k'
  | [] => rfl
  | kv :: rest => by
    by_cases hk : kv.1 = k
    · unfold lookupParam
      rw [List.map_cons, if_pos hk,
        List.find?_cons_of_neg _ (by simp [Ne.symm hne]),
        List.find?_cons_of_neg _ (by simp [hk, Ne.symm hne])]
      exact lookupParam_map_replace_ne k k' v hne rest
    · unfold lookupParam
      rw [List.map_cons, if_neg hk]
      by_cases hk' : kv.1 = k'
      · rw [List.find?_cons_of_pos _ (by simp [hk']),
          List.find?_cons_of_pos _ (by simp [hk'])]
      · rw [List.find?_cons_of_neg _ (by simp [hk']),
          List.find?_cons_of_neg _ (by simp [hk'])]
        exact lookupParam_map_replace_ne k k' v hne rest

theorem lookupParam_setParam (m : DataMap) (k k' : String) (v : JVal) :
    lookupParam (setParam m k v) k' =
      if k' = k then some v else lookupParam m k' := by
  unfold setParam
  by_cases hmem : m.any (fun kv => kv.1 = k) = true
  · rw [if_pos hmem]
    by_cases hk : k' = k
    · rw [if_pos hk, hk]
      exact lookupParam_map_replace_self k v m hmem
    · rw [if_neg hk]
      exact lookupParam_map_replace_ne k k' v hk m
  · rw [if_neg hmem]
    unfold lookupParam
    rw [List.find?_append]
    by_cases hk : k' = k
    · rw [if_pos hk]
      have hnone : m.find? (fun kv => decide (kv.1 = k')) = none := by
        rw [List.find?_eq_none]
        intro kv hkv hdec
        apply hmem
        rw [List.any_eq_true]
        exact ⟨kv, hkv, by rw [hk] at hdec; simpa using hdec⟩
      rw [hnone]
      simp [hk]
    · rw [if_neg hk]
      have hnone2 : List.find? (fun kv => decide (kv.1 = k')) [(k, v)] = none := by
        rw [List.find?_eq_none]
        intro kv hkv hdec
        simp at hkv
        rw [hkv] at hdec
        simp at hdec
        exact hk hdec.symm
      rw [hnone2]
      simp

theorem fitStatMap_lookups (ext : ExternalStats) (init : DataMap) (j : ℤ)
    (a p : List ℚ) :
    lookupParam (fitStatMap ext init j a p) "_RASE_" =
      some (.rat (ext.npSqrt (ext.mse a p))) ∧
    lookupParam (fitStatMap ext init j a p) "_ASE_" =
      some (.rat (ext.mse a p)) ∧
    lookupParam (fitStatMap ext init j a p) "_NObs_" =
      some (.int a.length) ∧
    lookupParam (fitStatMap ext init j a p) "_DIV_" =
      some (.int a.length) := by
  refine ⟨?_, ?_, ?_, ?_⟩ <;> simp [fitStatMap, lookupParam_setParam]

/-- C4: for every partition data set provided to `calculateFitStat`, the
metrics written into that partition dataMap satisfy their defining relations:
`_RASE_` is the (numpy) square root applied to exactly the `_ASE_` value,
both computed from the same actual and predicted values, and `_NObs_` and
`_DIV_` both equal the number of observations in the partition. -/
theorem c4_calculateFitStat_relations :
    ∀ (ext : ExternalStats) (tmpl : FitStatData)
      (validateData trainData testData : Option PartData) (out : FitStatData),
    calculateFitStat ext tmpl validateData trainData testData = some out →
    (∀ a p, validateData = some (a, p) →
      lookupParam out.d0 "_RASE_" = some (.rat (ext.npSqrt (ext.mse a p))) ∧
      lookupParam out.d0 "_ASE_" = some (.rat (ext.mse a p)) ∧
      lookupParam out.d0 "_NObs_" = some (.int a.length) ∧
      lookupParam out.d0 "_DIV_" = some (.int a.length)) ∧
    (∀ a p, trainData = some (a, p) →
      lookupParam out.d1 "_RASE_" = some (.rat (ext.npSqrt (ext.mse a p))) ∧
      lookupParam out.d1 "_ASE_" = some (.rat (ext.mse a p)) ∧
      lookupParam out.d1 "_NObs_" = some (.int a.length) ∧
      lookupParam out.d1 "_DIV_" = some (.int a.length)) ∧
    (∀ a p, testData = some (a, p) →
      lookupParam out.d2 "_RASE_" = some (.rat (ext.npSqrt (ext.mse a p))) ∧
      lookupParam out.d2 "_ASE_" = some (.rat (ext.mse a p)) ∧
      lookupParam out.d2 "_NObs_" = some (.int a.length) ∧
      lookupParam out.d2 "_DIV_" = some (.int a.length)) := by
  intro ext tmpl validateData trainData testData out h
  unfold calculateFitStat at h
  by_cases hc : validateData = none ∧ trainData = none ∧ testData = none
  · rw [if_pos hc] at h
    exact Option.noConfusion h
  · rw [if_neg hc] at h
    have hout := (Option.some.inj h).symm
    refine ⟨?_, ?_, ?_⟩
    · intro a p hv
      have hd : out.d0 = fitStatMap ext tmpl.d0 0 a p := by
        rw [hout, hv]
      rw [hd]
      exact fitStatMap_lookups ext tmpl.d0 0 a p
    · intro a p ht
      have hd : out.d1 = fitStatMap ext tmpl.d1 1 a p := by
        rw [hout, ht]
      rw [hd]
      exact fitStatMap_lookups ext tmpl.d1 1 a p
    · intro a p hte
      have hd : out.d2 = fitStatMap ext tmpl.d2 2 a p := by
        rw [hout, hte]
      rw [hd]
      exact fitStatMap_lookups ext tmpl.d2 2 a p

/-- C9: when `validateData`, `trainData` and `testData` are all absent,
`calculateFitStat` and `generateROCLiftStat` each raise `ValueError` and
write no output file (result `none`); an output file is produced exactly
when at least one partition data set is provided. -/
theorem c9_no_partition_raises :
    ∀ (ext : ExternalStats) (tmpl : FitStatData)
      (validateData trainData testData : Option PartData) (v t te : Bool),
    (calculateFitStat ext tmpl validateData trainData testData = none ↔
      validateData = none ∧ trainData = none ∧ testData = none) ∧
    (generateROCLiftStat v t te = none ↔
      v = false ∧ t = false ∧ te = false) := by
  intro ext tmpl validateData trainData testData v t te
  constructor
  · unfold calculateFitStat
    by_cases hc : validateData = none ∧ trainData = none ∧ testData = none
    · rw [if_pos hc]
      simp [hc]
    · rw [if_neg hc]
      simp [hc]
  · unfold generateROCLiftStat
    by_cases hc : v = false ∧ t = false ∧ te = false
    · rw [if_pos hc]
      simp [hc]
    · rw [if_neg hc]
      simp [hc]

/-- C3: `project_exists` is an idempotent get-or-create: a non-None response
is returned unchanged with no repository calls; with no response it raises
`SystemError` when the project string parses as a UUID, and otherwise creates
a project with that name in the default repository and returns the creation
response. -/
theorem c3_project_exists_get_or_create :
    ∀ (ρ : Type) (uuidOk : String → Bool) (project : String),
    (∀ r : ρ, project_exists uuidOk project (some r) = (.returned r, [])) ∧
    (@project_exists ρ uuidOk project none =
      if uuidOk project then (.raisedSystemError, [])
      else (.created project, [.defaultRepository, .createProject project])) :=
  fun _ _ _ => ⟨fun _ => rfl, rfl⟩

/-- C10 counterexample: `convertDataRole` maps the float `2.7` (neither 1, 2,
nor 3) to `TEST`, not to the TRAIN default the claim requires for every
other number: the code first truncates the float with `int(...)`. -/
theorem c10_convertDataRole_counterexample :
    convertDataRole (.float (mkRat 27 10)) = .str "TEST" ∧
    PyVal.str "TEST" ≠ PyVal.str "TRAIN" := by
  decide

/-- C10 amended: `convertDataRole` is total with TRAIN as the default, where
a float argument is first truncated toward zero by `int(...)`: the strings
TRAIN, TEST, VALIDATE map to 1, 2, 3 and every other string to 1; an int (or
a float whose truncation is) 1, 2, 3 maps to TRAIN, TEST, VALIDATE and every
other int to TRAIN; non-number non-string values map to 1; applying the
function twice is the identity on the six valid identifiers. -/
theorem c10_convertDataRole_amended :
    (convertDataRole (.str "TRAIN") = .int 1 ∧
     convertDataRole (.str "TEST") = .int 2 ∧
     convertDataRole (.str "VALIDATE") = .int 3) ∧
    (convertDataRole (.int 1) = .str "TRAIN" ∧
     convertDataRole (.int 2) = .str "TEST" ∧
     convertDataRole (.int 3) = .str "VALIDATE") ∧
    (∀ n : ℤ, n ≠ 1 → n ≠ 2 → n ≠ 3 →
      convertDataRole (.int n) = .str "TRAIN") ∧
    (∀ q : ℚ, convertDataRole (.float q) = convertDataRole (.int (pyTrunc q))) ∧
    (∀ s : String, s ≠ "TRAIN" → s ≠ "TEST" → s ≠ "VALIDATE" →
      convertDataRole (.str s) = .int 1) ∧
    ((∀ b : Bool, convertDataRole (.bool b) = .int 1) ∧
     convertDataRole .other = .int 1) ∧
    (∀ x ∈ [PyVal.str "TRAIN", PyVal.str "TEST", PyVal.str "VALIDATE",
        PyVal.int 1, PyVal.int 2, PyVal.int 3],
      convertDataRole (convertDataRole x) = x) := by
  refine ⟨by decide, by decide, ?_, ?_, ?_, ⟨fun b => by cases b <;> rfl, rfl⟩,
    by decide⟩
  · intro n h1 h2 h3
    simp only [convertDataRole]
    rw [if_neg h1, if_neg h2, if_neg h3]
  · intro q
    rfl
  · intro s h1 h2 h3
    simp only [convertDataRole]
    rw [if_neg h1, if_neg h2, if_neg h3]

/-- Witness for the amended C10 at the concrete inputs 7, 2.7 and "X". -/
theorem c10_convertDataRole_amended_witness :
    convertDataRole (.int 7) = .str "TRAIN" ∧
    convertDataRole (.float (mkRat 27 10)) =
      convertDataRole (.int (pyTrunc (mkRat 27 10))) ∧
    convertDataRole (.str "X") = .int 1 :=
  ⟨c10_convertDataRole_amended.2.2.1 7 (by decide) (by decide) (by decide),
   c10_convertDataRole_amended.2.2.2.1 (mkRat 27 10),
   c10_convertDataRole_amended.2.2.2.2.1 "X" (by decide) (by decide) (by decide)⟩

theorem deleteLoop_raise (nm : String) :
    ∀ ms : List MRModel, (∃ m ∈ ms, m.name = nm) →
    deleteLoop nm false ms = ([], true)
  | [], h => by simp at h
  | m :: rest, h => by
    simp only [deleteLoop]
    by_cases hm : m.name = nm
    · rw [if_neg (by simp), if_pos ⟨hm, by trivial⟩]
    · rw [if_neg (by simp [hm]), if_neg (by simp [hm])]
      refine deleteLoop_raise nm rest ?_
      rcases h with ⟨m2, hm2, hname⟩
      rcases List.mem_cons.mp hm2 with rfl | hm2
      · exact absurd hname hm
      · exact ⟨m2, hm2, hname⟩

theorem deleteLoop_delete_all (nm : String) :
    ∀ ms : List MRModel,
    deleteLoop nm true ms =
      ((ms.filter fun m => m.name = nm).map fun m => m.id, false)
  | [] => rfl
  | m :: rest => by
    simp only [deleteLoop]
    by_cases hm : m.name = nm
    · rw [if_pos ⟨hm, by trivial⟩, deleteLoop_delete_all nm rest,
        List.filter_cons_of_pos (by simpa using hm), List.map_cons]
    · rw [if_neg (by simp [hm]), if_neg (by simp [hm]),
        deleteLoop_delete_all nm rest, List.filter_cons_of_neg
        (by simpa using hm)]

theorem deleteLoop_only_named (nm : String) (force : Bool) :
    ∀ ms : List MRModel, ∀ i ∈ (deleteLoop nm force ms).1,
    ∃ m ∈ ms, m.name = nm ∧ m.id = i
  | [], i, hi => by simp [deleteLoop] at hi
  | m :: rest, i, hi => by
    simp only [deleteLoop] at hi
    by_cases hm : m.name = nm ∧ force = true
    · rw [if_pos hm] at hi
      rcases List.mem_cons.mp hi with rfl | hi
      · exact ⟨m, List.mem_cons_self m rest, hm.1, rfl⟩
      · rcases deleteLoop_only_named nm force rest i hi with ⟨m2, hm2, h2⟩
        exact ⟨m2, List.mem_cons_of_mem m hm2, h2⟩
    · rw [if_neg hm] at hi
      by_cases hm2 : m.name = nm ∧ force = false
      · rw [if_pos hm2] at hi
        simp at hi
      · rw [if_neg hm2] at hi
        rcases deleteLoop_only_named nm force rest i hi with ⟨m3, hm3, h3⟩
        exact ⟨m3, List.mem_cons_of_mem m hm3, h3⟩

/-- C2: for the models of the resolved project version, if a model named
`nm` exists and `force` is falsy then `model_exists` raises `ValueError` and
deletes nothing; if such a model exists and `force` is truthy it deletes
every model with that name and raises nothing; and models with other names
are never deleted. -/
theorem c2_model_exists_force :
    ∀ (pm : ProjectModels) (nm : String) (force : Bool),
    ((∃ m ∈ pm.models, m.name = nm) → force = false →
      model_exists pm nm force = ([], true)) ∧
    ((∃ m ∈ pm.models, m.name = nm) → force = true →
      (model_exists pm nm force).2 = false ∧
      (model_exists pm nm force).1 =
        (pm.models.filter fun m => m.name = nm).map fun m => m.id) ∧
    (∀ i ∈ (model_exists pm nm force).1,
      ∃ m ∈ pm.models, m.name = nm ∧ m.id = i) := by
  intro pm nm force
  cases pm with
  | empty =>
    refine ⟨fun h _ => absurd h (by simp [ProjectModels.models]), ?_, ?_⟩
    · intro h
      exact absurd h (by simp [ProjectModels.models])
    · intro i hi
      simp [model_exists] at hi
  | single m =>
    refine ⟨?_, ?_, ?_⟩
    · rintro ⟨m2, hm2, hname⟩ rfl
      simp only [ProjectModels.models, List.mem_singleton] at hm2
      subst hm2
      simp only [model_exists]
      rw [if_neg (by simp), if_pos ⟨hname, by trivial⟩]
    · rintro ⟨m2, hm2, hname⟩ rfl
      simp only [ProjectModels.models, List.mem_singleton] at hm2
      subst hm2
      simp only [model_exists]
      rw [if_pos ⟨hname, by trivial⟩]
      constructor
      · rfl
      · simp only [ProjectModels.models]
        rw [List.filter_cons_of_pos (by simpa using hname)]
        rfl
    · intro i hi
      simp only [model_exists] at hi
      by_cases h1 : m.name = nm ∧ force = true
      · rw [if_pos h1] at hi
        simp only [List.mem_singleton] at hi
        exact ⟨m, by simp [ProjectModels.models], h1.1, hi.symm⟩
      · rw [if_neg h1] at hi
        by_cases h2 : m.name = nm ∧ force = false
        · rw [if_pos h2] at hi
          simp at hi
        · rw [if_neg h2] at hi
          simp at hi
  | paged ms =>
    refine ⟨?_, ?_, ?_⟩
    · intro h hf
      subst hf
      exact deleteLoop_raise nm ms h
    · intro h hf
      subst hf
      rw [show model_exists (.paged ms) nm true = deleteLoop nm true ms from rfl,
        deleteLoop_delete_all nm ms]
      exact ⟨rfl, rfl⟩
    · intro i hi
      exact deleteLoop_only_named nm force ms i hi

/-- Witness for C2 on a paged list holding models "a" (ids 1 and 3) and "b"
(id 2): with force the two models named "a" are deleted and nothing raises. -/
theorem c2_model_exists_force_witness :
    (model_exists (.paged [⟨"a", 1⟩, ⟨"b", 2⟩, ⟨"a", 3⟩]) "a" true).2 = false ∧
    (model_exists (.paged [⟨"a", 1⟩, ⟨"b", 2⟩, ⟨"a", 3⟩]) "a" true).1 =
      ((ProjectModels.paged [⟨"a", 1⟩, ⟨"b", 2⟩, ⟨"a", 3⟩]).models.filter
        fun m => m.name = "a").map fun m => m.id :=
  (c2_model_exists_force (.paged [⟨"a", 1⟩, ⟨"b", 2⟩, ⟨"a", 3⟩]) "a" true).2.1
    (by exact ⟨⟨"a", 1⟩, by simp [ProjectModels.models], rfl⟩) rfl

/-- C1: with `input_data`, `predict_method` and `score_metrics` all supplied,
on SAS Viya 4 `import_model` writes the score code first and zips the model
files (merging a returned score-code dictionary) with `is_viya4=True` before
the single `import_model_from_zip` call; otherwise it zips with
`is_viya4=False`, imports first, and writes the score code afterwards with
the imported model passed to `write_score_code`. In both branches the
project existence check, the model existence check and the zip import happen
in that order. -/
theorem c1_import_model_order :
    ∀ a : ImportArgs,
    a.inputDataGiven = true → a.predictMethodGiven = true →
    a.scoreMetricsGiven = true →
    (a.viyaVersion = 4 →
      (import_model a).trace =
        [.writeScoreCode false, .zipFiles true (scoreCodeReturnsDict a),
         .projectCheck, .modelCheck, .importZip]) ∧
    (a.viyaVersion ≠ 4 →
      (import_model a).trace =
        [.zipFiles false false, .projectCheck, .modelCheck, .importZip,
         .writeScoreCode true, .getModel]) ∧
    (import_model a).trace.count .importZip = 1 := by
  intro a h1 h2 h3
  unfold import_model
  rw [if_neg (by simp [h1, h2, h3])]
  by_cases h4 : a.viyaVersion = 4
  · rw [if_pos h4]
    exact ⟨fun _ => rfl, fun hc => absurd h4 hc, rfl⟩
  · rw [if_neg h4]
    exact ⟨fun hc => absurd hc h4, fun _ => rfl, rfl⟩

/-- Witness for C1 with all arguments supplied on a Viya 4 session with
path-based model files. -/
theorem c1_import_model_order_witness :
    (import_model ⟨false, true, true, true, 4⟩).trace =
      [.writeScoreCode false,
       .zipFiles true (scoreCodeReturnsDict ⟨false, true, true, true, 4⟩),
       .projectCheck, .modelCheck, .importZip] ∧
    (import_model ⟨false, true, true, true, 4⟩).trace.count .importZip = 1 :=
  have h := c1_import_model_order ⟨false, true, true, true, 4⟩ rfl rfl rfl
  ⟨h.1 rfl, h.2.2⟩

/-- C8: when `input_data`, `predict_method` or `score_metrics` is missing,
`import_model` warns, generates no score code at all, zips the model files
with `is_viya4=False` regardless of the platform version, imports the zip,
and returns the import response together with the original `model_files`. -/
theorem c8_import_model_missing_args :
    ∀ a : ImportArgs,
    (a.inputDataGiven = false ∨ a.predictMethodGiven = false ∨
      a.scoreMetricsGiven = false) →
    import_model a =
      { trace := [.warnMissingArgs, .zipFiles false false, .projectCheck,
                  .modelCheck, .importZip],
        retResp := .importResponse, retFiles := .original } ∧
    (∀ b : Bool, Ev.writeScoreCode b ∉ (import_model a).trace) := by
  intro a h
  have he : import_model a =
      { trace := [.warnMissingArgs, .zipFiles false false, .projectCheck,
                  .modelCheck, .importZip],
        retResp := .importResponse, retFiles := .original } := by
    unfold import_model
    rw [if_pos (by rcases h with h | h | h <;> simp [h])]
  refine ⟨he, ?_⟩
  intro b
  rw [he]
  simp

/-- Witness for C8 on a Viya 4 session with `input_data` missing. -/
theorem c8_import_model_missing_args_witness :
    import_model ⟨false, false, true, true, 4⟩ =
      { trace := [.warnMissingArgs, .zipFiles false false, .projectCheck,
                  .modelCheck, .importZip],
        retResp := .importResponse, retFiles := .original } ∧
    Ev.writeScoreCode true ∉ (import_model ⟨false, false, true, true, 4⟩).trace :=
  have h := c8_import_model_missing_args ⟨false, false, true, true, 4⟩ (Or.inl rfl)
  ⟨h.1, h.2 true⟩

theorem entry_setEntry (d : FitStatData) (j i : Fin 3) (m : DataMap) :
    (d.setEntry j m).entry i = if i = j then m else d.entry i := by
  fin_cases i <;> fin_cases j <;>
    simp [FitStatData.entry, FitStatData.setEntry]

theorem writeBaseStep_frame (d d' : FitStatData) (arg : FitArg)
    (h : writeBaseStep d arg = some d') (i : Fin 3) (key : String)
    (hkey : key ∉ validParams) :
    lookupParam (d'.entry i) key = lookupParam (d.entry i) key := by
  cases arg with
  | other =>
    rw [Option.some.inj h]
  | tup3 nm v role =>
    simp only [writeBaseStep] at h
    by_cases hvalid : formatParameter nm ∉ validParams
    · rw [if_pos hvalid] at h
      rw [Option.some.inj h]
    · rw [if_neg hvalid] at h
      have hset : ∀ j : Fin 3,
          d' = d.setEntry j (setParam (d.entry j) (formatParameter nm) v) →
          lookupParam (d'.entry i) key = lookupParam (d.entry i) key := by
        intro j hj
        rw [hj, entry_setEntry]
        by_cases hij : i = j
        · rw [if_pos hij, lookupParam_setParam,
            if_neg (fun hk => hkey (by rw [hk]; exact not_not.mp hvalid)), hij]
        · rw [if_neg hij]
      cases role with
      | int n =>
        dsimp only at h
        rcases hidx : pyListIdx (n - 1) with _ | j <;> rw [hidx] at h
        · exact Option.noConfusion h
        · exact hset j (Option.some.inj h).symm
      | float q =>
        exact Option.noConfusion h
      | str s =>
        dsimp only [convertDataRole] at h
        rcases hidx : pyListIdx
            ((if s = "TRAIN" then 1 else if s = "TEST" then 2
              else if s = "VALIDATE" then 3 else 1) - 1) with _ | j <;>
          rw [hidx] at h
        · exact Option.noConfusion h
        · exact hset j (Option.some.inj h).symm
      | bool b =>
        dsimp only at h
        rcases hidx : pyListIdx ((if b then 1 else 0) - 1) with _ | j <;>
          rw [hidx] at h
        · exact Option.noConfusion h
        · exact hset j (Option.some.inj h).symm
      | other =>
        exact Option.noConfusion h

theorem writeBaseFitStat_frame :
    ∀ (tupleList : List FitArg) (tmpl out : FitStatData),
    writeBaseFitStat tmpl tupleList = some out →
    ∀ (i : Fin 3) (key : String), key ∉ validParams →
    lookupParam (out.entry i) key = lookupParam (tmpl.entry i) key
  | [], tmpl, out, h => by
    intro i key _
    rw [Option.some.inj h]
  | arg :: rest, tmpl, out, h => by
    intro i key hkey
    rw [writeBaseFitStat, List.foldlM_cons] at h
    rcases hstep : writeBaseStep tmpl arg with _ | mid <;> rw [hstep] at h
    · exact Option.noConfusion h
    · have h2 : writeBaseFitStat mid rest = some out := h
      rw [writeBaseFitStat_frame rest mid out h2 i key hkey,
        writeBaseStep_frame tmpl mid arg hstep i key hkey]

theorem writeBaseStep_ignored (d : FitStatData) (arg : FitArg)
    (h : ignoredFitArg arg) : writeBaseStep d arg = some d := by
  cases arg with
  | other => rfl
  | tup3 nm v role =>
    simp only [writeBaseStep]
    rw [if_pos (show formatParameter nm ∉ validParams from h)]

theorem writeBaseFitStat_ignored :
    ∀ (tupleList : List FitArg), (∀ arg ∈ tupleList, ignoredFitArg arg) →
    ∀ tmpl : FitStatData, writeBaseFitStat tmpl tupleList = some tmpl
  | [], _, tmpl => rfl
  | arg :: rest, h, tmpl => by
    rw [writeBaseFitStat, List.foldlM_cons,
      writeBaseStep_ignored tmpl arg (h arg (List.mem_cons_self arg rest))]
    exact writeBaseFitStat_ignored rest
      (fun a ha => h a (List.mem_cons_of_mem arg ha)) tmpl

/-- C6: for every `tupleList` processed by `writeBaseFitStat` (with
`userInput=False` and no CSV path), the written `dmcas_fitstat.json` equals
the null template except in dataMap entries whose formatted parameter name
is one of the thirteen valid parameters; list elements that are not
3-element tuples, and parameters outside that list, are ignored and leave
the output identical to the template. -/
theorem c6_writeBaseFitStat_frame :
    ∀ (tmpl : FitStatData) (tupleList : List FitArg) (out : FitStatData),
    writeBaseFitStat tmpl tupleList = some out →
    (∀ (i : Fin 3) (key : String), key ∉ validParams →
      lookupParam (out.entry i) key = lookupParam (tmpl.entry i) key) ∧
    ((∀ arg ∈ tupleList, ignoredFitArg arg) → out = tmpl) := by
  intro tmpl tupleList out h
  constructor
  · exact writeBaseFitStat_frame tupleList tmpl out h
  · intro hign
    have h2 := writeBaseFitStat_ignored tupleList hign tmpl
    rw [h2] at h
    exact (Option.some.inj h).symm

/-- Witness for C6 on the template with empty dataMaps and a tuple list
holding one valid parameter and one ignored element. -/
theorem c6_writeBaseFitStat_frame_witness :
    lookupParam
      ((⟨[("_RASE_", JVal.str "x")], [], []⟩ : FitStatData).entry 0) "_FOO_" =
    lookupParam ((⟨[], [], []⟩ : FitStatData).entry 0) "_FOO_" :=
  (c6_writeBaseFitStat_frame ⟨[], [], []⟩
    [.tup3 "RASE" (.str "x") (.int 1), .other]
    ⟨[("_RASE_", JVal.str "x")], [], []⟩ rfl).1 0 "_FOO_" (by decide)

/-- C5 counterexample: for the TRAIN partition the two writers use different
template entries: `writeBaseFitStat` puts a TRAIN-role parameter into entry
0 (index `convertDataRole("TRAIN") - 1`), while `calculateFitStat` with only
`trainData` provided leaves entry 0 untouched and writes the train metrics
into entry 1. -/
theorem c5_fitstat_index_counterexample :
    writeBaseFitStat ⟨[], [], []⟩ [.tup3 "RASE" (.str "v") (.str "TRAIN")] =
      some ⟨[("_RASE_", JVal.str "v")], [], []⟩ ∧
    calculateFitStat extZero ⟨[], [], []⟩ none (some ([0], [0])) none =
      some ⟨[], fitStatMap extZero [] 1 [0] [0], []⟩ ∧
    fitStatMap extZero [] 1 [0] [0] ≠ [] := by
  refine ⟨rfl, rfl, by decide⟩

/-- C5 amended: `writeBaseFitStat` writes a valid parameter with string data
role r into the template entry at index `convertDataRole(r) - 1` (TRAIN at
0, TEST at 1, VALIDATE at 2), while `calculateFitStat` writes each provided
partition's metrics into the entry of that partition's position in the
enumeration (validate, train, test) (VALIDATE at 0, TRAIN at 1, TEST at 2);
the two writers therefore place every partition's statistics at different
indices. -/
theorem c5_fitstat_indices_amended :
    ∀ (ext : ExternalStats) (tmpl : FitStatData) (nm : String) (v : JVal)
      (a p : List ℚ),
    formatParameter nm ∈ validParams →
    (writeBaseFitStat tmpl [.tup3 nm v (.str "TRAIN")] =
        some (tmpl.setEntry 0 (setParam (tmpl.entry 0) (formatParameter nm) v)) ∧
      calculateFitStat ext tmpl none (some (a, p)) none =
        some ⟨tmpl.d0, fitStatMap ext tmpl.d1 1 a p, tmpl.d2⟩) ∧
    (writeBaseFitStat tmpl [.tup3 nm v (.str "TEST")] =
        some (tmpl.setEntry 1 (setParam (tmpl.entry 1) (formatParameter nm) v)) ∧
      calculateFitStat ext tmpl none none (some (a, p)) =
        some ⟨tmpl.d0, tmpl.d1, fitStatMap ext tmpl.d2 2 a p⟩) ∧
    (writeBaseFitStat tmpl [.tup3 nm v (.str "VALIDATE")] =
        some (tmpl.setEntry 2 (setParam (tmpl.entry 2) (formatParameter nm) v)) ∧
      calculateFitStat ext tmpl (some (a, p)) none none =
        some ⟨fitStatMap ext tmpl.d0 0 a p, tmpl.d1, tmpl.d2⟩) := by
  intro ext tmpl nm v a p hvalid
  have hwb : ∀ s : String,
      writeBaseFitStat tmpl [.tup3 nm v (.str s)] =
        (writeBaseStep tmpl (.tup3 nm v (.str s))).bind fun d => some d := by
    intro s
    rfl
  refine ⟨⟨?_, rfl⟩, ⟨?_, rfl⟩, ⟨?_, rfl⟩⟩ <;>
    rw [hwb, writeBaseStep, if_neg (not_not_intro hvalid)] <;> rfl

/-- Witness for the amended C5 at the empty template with the RASE parameter
and a one-observation train partition. -/
theorem c5_fitstat_indices_amended_witness :
    writeBaseFitStat ⟨[], [], []⟩ [.tup3 "RASE" JVal.null (.str "TRAIN")] =
      some ((⟨[], [], []⟩ : FitStatData).setEntry 0
        (setParam ((⟨[], [], []⟩ : FitStatData).entry 0)
          (formatParameter "RASE") JVal.null)) ∧
    calculateFitStat extZero ⟨[], [], []⟩ none (some ([0], [0])) none =
      some ⟨(⟨[], [], []⟩ : FitStatData).d0,
        fitStatMap extZero (⟨[], [], []⟩ : FitStatData).d1 1 [0] [0],
        (⟨[], [], []⟩ : FitStatData).d2⟩ :=
  (c5_fitstat_indices_amended extZero ⟨[], [], []⟩ "RASE" JVal.null [0] [0]
    (by decide)).1

/-- Witness for C4 with the zero external statistics and a one-observation
validation partition. -/
theorem c4_calculateFitStat_relations_witness :
    lookupParam (fitStatMap extZero [] 0 [1] [1]) "_RASE_" =
      some (.rat (extZero.npSqrt (extZero.mse [1] [1]))) ∧
    lookupParam (fitStatMap extZero [] 0 [1] [1]) "_ASE_" =
      some (.rat (extZero.mse [1] [1])) ∧
    lookupParam (fitStatMap extZero [] 0 [1] [1]) "_NObs_" =
      some (.int ([(1 : ℚ)] : List ℚ).length) ∧
    lookupParam (fitStatMap extZero [] 0 [1] [1]) "_DIV_" =
      some (.int ([(1 : ℚ)] : List ℚ).length) :=
  (c4_calculateFitStat_relations extZero ⟨[], [], []⟩ (some ([1], [1]))
    none none ⟨fitStatMap extZero [] 0 [1] [1], [], []⟩ rfl).1 [1] [1] rfl
